import Mathlib

/-!
Verification of the TinyFrame web framework core (`src/core.py`) against its
natural-language specification.

The development shallowly embeds the routing, dispatch, session and response
machinery of `core.py` into Lean.  Strings are modelled as `List Char`
(`Str`); Python dicts that preserve insertion order are modelled as
association lists with update-in-place semantics; the regular expressions
produced by `compile_route` are modelled by a token list together with a
backtracking matcher that mirrors Python's leftmost-greedy semantics for the
only constructs the compiler emits: literal characters, `(?P<n>[^/]+)` and
`(?P<n>.+)`, anchored by `^` and `$` (Python's `$` also accepts one trailing
newline, which the matcher models).  Route literals are modelled verbatim;
this is faithful for templates whose literal text contains no regex
metacharacters (the framework never escapes literals, so e.g. a literal `.`
would behave as a wildcard; no claim depends on such templates and the
theorems that quantify over templates carry a `litsPlain` hypothesis
restricting to metacharacter-free literals).
-/

namespace TinyFrameSpec

/-- Strings as lists of characters. -/
abbrev Str := List Char

/-- Convert a Lean string literal to the `Str` model. -/
def chars (s : String) : Str := s.data

/-- Python `str.upper` on ASCII strings. -/
def upperStr (s : Str) : Str := s.map Char.toUpper

/-- Python `str.lower` on ASCII strings. -/
def lowerStr (s : Str) : Str := s.map Char.toLower

/-- Association-list lookup, modelling Python `dict.get` / `dict[...]`. -/
def getA (k : Str) : List (Str × α) → Option α
  | [] => none
  | (k2, v) :: rest => if k = k2 then some v else getA k rest

/-- Association-list update, modelling Python `dict[k] = v`: an existing key
keeps its insertion position, a new key is appended. -/
def setA (k : Str) (v : α) : List (Str × α) → List (Str × α)
  | [] => [(k, v)]
  | (k2, v2) :: rest => if k = k2 then (k, v) :: rest else (k2, v2) :: setA k v rest

/-! ## Pattern compiler (`compile_route`, `core.py` lines 22-38)

`compile_route` substitutes every occurrence of the regex
`<(path:)?(\w+)>` in the template by a named capturing group and anchors the
result.  The token list below is the shape of the regex it builds. -/

/-- One piece of the compiled pattern: a verbatim literal run, or a
parameter group.  `isPath = true` is the `path:` converter, compiled to
`(?P<name>.+)`; `isPath = false` is compiled to `(?P<name>[^/]+)`. -/
inductive RouteTok where
  | lit (l : Str)
  | param (isPath : Bool) (name : Str)
deriving DecidableEq

/-- Python `\w` on ASCII input. -/
def isWordChar (c : Char) : Bool := c.isAlphanum || c = '_'

/-- After an opening `<`, try to read `\w+>` and return the name and the
rest of the input.  Mirrors the `(\w+)>` part of the placeholder regex:
`\w+` is greedy and the run cannot be shortened (a shorter run would leave a
word character where `>` is required), so the maximal run is the only
candidate. -/
def phTail (ds : Str) : Option (Str × Str) :=
  let name := ds.takeWhile isWordChar
  match ds.dropWhile isWordChar with
  | '>' :: r => if name = [] then none else some (name, r)
  | _ => none

/-- After an opening `<`, match `(path:)?(\w+)>`.  The optional group is
greedy: `path:` is tried first, and on failure the engine backtracks to the
empty alternative. -/
def parsePH (cs : Str) : Option (Bool × Str × Str) :=
  match cs with
  | 'p' :: 'a' :: 't' :: 'h' :: ':' :: ds =>
    match phTail ds with
    | some (n, r) => some (true, n, r)
    | none =>
      match phTail cs with
      | some (n, r) => some (false, n, r)
      | none => none
  | _ =>
    match phTail cs with
    | some (n, r) => some (false, n, r)
    | none => none

/-- Prepend a literal character, merging with a leading literal token. -/
def consLit (c : Char) : List RouteTok → List RouteTok
  | .lit l :: ts => .lit (c :: l) :: ts
  | ts => .lit [c] :: ts

/-- Fuel-indexed scan of the template, mirroring how `re.sub` walks the
template left to right replacing each placeholder match and keeping
everything else verbatim.  The fuel is only a termination device: one
character at least is consumed per step, so `cs.length` fuel is enough. -/
def scanTmplF : Nat → Str → List RouteTok
  | 0, _ => []
  | _ + 1, [] => []
  | f + 1, c :: rest =>
    if c = '<' then
      match parsePH rest with
      | some (b, n, rest2) => .param b n :: scanTmplF f rest2
      | none => consLit c (scanTmplF f rest)
    else consLit c (scanTmplF f rest)

/-- Tokenized form of a route template. -/
def scanTmpl (cs : Str) : List RouteTok := scanTmplF cs.length cs

/-- Parameter names of a pattern, in group order. -/
def tokNames : List RouteTok → List Str
  | [] => []
  | .lit _ :: ts => tokNames ts
  | .param _ n :: ts => n :: tokNames ts

/-- Model of `compile_route` (`core.py` 22-38).  Python's `re.compile` raises
`re.error` ("redefinition of group name") when two named groups share a
name, so compilation succeeds exactly when the parameter names are
distinct; the error propagates to the registration-time caller, modelled by
`none`. -/
def compile_route (route_str : Str) : Option (List RouteTok) :=
  let toks := scanTmpl route_str
  if (tokNames toks).Nodup then some toks else none

/-! ## The compiled pattern's matcher

`TinyFrame._handle_request` runs `pattern.match(request.path)` on the
compiled `^...$` regex.  The matcher below implements Python's backtracking
semantics for the emitted constructs: a greedy single-character-class `+`
group tries the longest repetition first; `$` accepts the end of input or a
single trailing newline; `[^/]` excludes `/` and `.` excludes a newline. -/

/-- Characters matched by the parameter's character class. -/
def validChar (isPath : Bool) (c : Char) : Bool :=
  if isPath then c ≠ '\n' else c ≠ '/'

/-- Captured groups, in group order. -/
abbrev Caps := List (Str × Str)

/-- Backtracking over the repetition count of a greedy `+` group: the
continuation `k` is run on the rest of the input for each candidate length
`i, i-1, ..., 1`, longest first, and the first success wins. -/
def tryCand (k : Str → Option Caps) (n : Str) (s : Str) : Nat → Option Caps
  | 0 => none
  | i + 1 =>
    match k (s.drop (i + 1)) with
    | some caps => some ((n, s.take (i + 1)) :: caps)
    | none => tryCand k n s i

/-- Fuel-indexed matcher.  Every recursive call shrinks `toks.length +
s.length`, so `toks.length + s.length + 1` fuel is always enough. -/
def reMatchF : Nat → List RouteTok → Str → Option Caps
  | 0, _, _ => none
  | _ + 1, [], s => if s = [] ∨ s = ['\n'] then some [] else none
  | f + 1, .lit l :: ts, s =>
    if l.isPrefixOf s then reMatchF f ts (s.drop l.length) else none
  | f + 1, .param isP n :: ts, s =>
    tryCand (fun s2 => reMatchF f ts s2) n s (s.takeWhile (validChar isP)).length

/-- Running `compiled.match(path)` followed by `groupdict()`: `some` is a match with
its captures in group order, `none` is a failed match. -/
def reMatch (toks : List RouteTok) (s : Str) : Option Caps :=
  reMatchF (toks.length + s.length + 1) toks s

/-! ## The matcher's declarative semantics -/

/-- A declarative reading of the compiled `^...$` regex: the path splits
into the literals and one non-empty capture per group, each capture drawn
from its group's character class, with `$` allowing one trailing newline. -/
def MatchRel : List RouteTok → Str → Caps → Prop
  | [], s, caps => (s = [] ∨ s = ['\n']) ∧ caps = []
  | .lit l :: ts, s, caps => ∃ s2, s = l ++ s2 ∧ MatchRel ts s2 caps
  | .param isP n :: ts, s, caps =>
    ∃ v s2 caps2, s = v ++ s2 ∧ v ≠ [] ∧ (∀ c ∈ v, validChar isP c = true) ∧
      caps = (n, v) :: caps2 ∧ MatchRel ts s2 caps2

lemma take_all_valid (p : Char → Bool) :
    ∀ (s : Str) (j : Nat), j ≤ (s.takeWhile p).length → ∀ c ∈ s.take j, p c = true := by
  intro s
  induction s with
  | nil => intro j _ c hc; simp at hc
  | cons a s ih =>
    intro j hj c hc
    cases j with
    | zero => simp at hc
    | succ j =>
      by_cases hpa : p a
      · simp [List.takeWhile_cons, hpa] at hj
        simp [List.take_succ_cons] at hc
        rcases hc with hc | hc
        · exact hc ▸ hpa
        · exact ih j (by omega) c hc
      · simp [List.takeWhile_cons, hpa] at hj

lemma tryCand_sound (k : Str → Option Caps) (n : Str) (s : Str) :
    ∀ (i : Nat) (caps : Caps), tryCand k n s i = some caps →
      ∃ j, 1 ≤ j ∧ j ≤ i ∧ ∃ caps2, k (s.drop j) = some caps2 ∧ caps = (n, s.take j) :: caps2 := by
  intro i
  induction i with
  | zero => intro caps h; simp [tryCand] at h
  | succ i ih =>
    intro caps h
    simp only [tryCand] at h
    cases hk : k (s.drop (i + 1)) with
    | some caps2 =>
      rw [hk] at h
      exact ⟨i + 1, Nat.succ_le_succ (Nat.zero_le i), Nat.le_refl _, caps2, hk, by
        injection h with h2; exact h2.symm⟩
    | none =>
      rw [hk] at h
      obtain ⟨j, hj1, hj2, caps2, hkj, hcps⟩ := ih caps h
      exact ⟨j, hj1, Nat.le_succ_of_le hj2, caps2, hkj, hcps⟩

lemma reMatchF_sound :
    ∀ (f : Nat) (toks : List RouteTok) (s : Str) (caps : Caps),
      reMatchF f toks s = some caps → MatchRel toks s caps := by
  intro f
  induction f with
  | zero => intro toks s caps h; simp [reMatchF] at h
  | succ f ih =>
    intro toks s caps h
    match toks with
    | [] =>
      simp only [reMatchF] at h
      split at h
      · next hs => injection h with h2; exact ⟨hs, h2.symm⟩
      · exact absurd h (by simp)
    | .lit l :: ts =>
      simp only [reMatchF] at h
      split at h
      · next hpre =>
        have hp : l <+: s := List.isPrefixOf_iff_prefix.mp hpre
        obtain ⟨t, ht⟩ := hp
        refine ⟨t, ht.symm, ?_⟩
        have hd : s.drop l.length = t := by rw [← ht]; exact List.drop_left l t
        rw [hd] at h
        exact ih ts t caps h
      · exact absurd h (by simp)
    | .param isP n :: ts =>
      simp only [reMatchF] at h
      obtain ⟨j, hj1, hj2, caps2, hkj, hcps⟩ := tryCand_sound _ n s _ caps h
      have hjs : j ≤ s.length :=
        Nat.le_trans hj2 (List.IsPrefix.length_le (List.takeWhile_prefix _))
      refine ⟨s.take j, s.drop j, caps2, (List.take_append_drop j s).symm, ?_, ?_, hcps, ?_⟩
      · intro hnil
        have : (s.take j).length = 0 := by rw [hnil]; rfl
        rw [List.length_take] at this
        omega
      · exact take_all_valid _ s j hj2
      · exact ih ts (s.drop j) caps2 hkj

lemma tryCand_complete (k : Str → Option Caps) (n : Str) (s : Str) :
    ∀ (i : Nat), (∃ j, 1 ≤ j ∧ j ≤ i ∧ (k (s.drop j)).isSome) →
      (tryCand k n s i).isSome := by
  intro i
  induction i with
  | zero => rintro ⟨j, hj1, hj2, _⟩; omega
  | succ i ih =>
    rintro ⟨j, hj1, hj2, hk⟩
    simp only [tryCand]
    cases hki : k (s.drop (i + 1)) with
    | some caps => simp
    | none =>
      simp only []
      refine ih ⟨j, hj1, ?_, hk⟩
      rcases Nat.lt_or_ge j (i + 1) with hlt | hge
      · omega
      · exfalso
        have : j = i + 1 := by omega
        rw [this, hki] at hk
        simp at hk

lemma prefix_takeWhile_le (p : Char → Bool) :
    ∀ (v s2 : Str), (∀ c ∈ v, p c = true) → v.length ≤ ((v ++ s2).takeWhile p).length := by
  intro v
  induction v with
  | nil => intro s2 _; simp
  | cons a v ih =>
    intro s2 hv
    have hpa : p a = true := hv a (by simp)
    simp only [List.cons_append, List.takeWhile_cons, hpa, List.length_cons]
    exact Nat.succ_le_succ (ih s2 fun c hc => hv c (by simp [hc]))

lemma reMatchF_complete :
    ∀ (toks : List RouteTok) (s : Str) (caps : Caps) (f : Nat),
      toks.length + s.length < f → MatchRel toks s caps → (reMatchF f toks s).isSome := by
  intro toks
  induction toks with
  | nil =>
    intro s caps f hf hm
    obtain ⟨hs, -⟩ := hm
    match f, hf with
    | f + 1, _ => simp [reMatchF, hs]
  | cons t ts ih =>
    intro s caps f hf hm
    match f, hf with
    | f + 1, hf =>
      match t, hm with
      | .lit l, ⟨s2, hs, hm2⟩ =>
        have hpre : l.isPrefixOf s = true :=
          List.isPrefixOf_iff_prefix.mpr ⟨s2, hs.symm⟩
        have hd : s.drop l.length = s2 := by rw [hs]; exact List.drop_left l s2
        simp only [reMatchF, hpre, if_true, hd]
        refine ih s2 caps f ?_ hm2
        have : s.length = l.length + s2.length := by rw [hs]; simp
        simp only [List.length_cons] at hf
        omega
      | .param isP n, ⟨v, s2, caps2, hs, hv, hval, _, hm2⟩ =>
        simp only [reMatchF]
        refine tryCand_complete _ n s _ ⟨v.length, ?_, ?_, ?_⟩
        · exact Nat.one_le_iff_ne_zero.mpr (by simp [hv])
        · rw [hs]; exact prefix_takeWhile_le _ v s2 hval
        · have hd : s.drop v.length = s2 := by rw [hs]; exact List.drop_left v s2
          rw [hd]
          refine ih s2 caps2 f ?_ hm2
          have h1 : 1 ≤ v.length := Nat.one_le_iff_ne_zero.mpr (by simp [hv])
          have : s.length = v.length + s2.length := by rw [hs]; simp
          simp only [List.length_cons] at hf
          omega

/-! ## Substituting parameter values into a template -/

/-- The path obtained from a compiled pattern by replacing each parameter
group, in order, by the corresponding value. -/
def subst : List RouteTok → List Str → Str
  | [], _ => []
  | .lit l :: ts, vs => l ++ subst ts vs
  | .param _ _ :: ts, v :: vs => v ++ subst ts vs
  | .param _ _ :: _, [] => []

/-- The captures the specification expects back from matching a substituted
path: each parameter name paired with the value substituted for it. -/
def expectedCaps : List RouteTok → List Str → Caps
  | [], _ => []
  | .lit _ :: ts, vs => expectedCaps ts vs
  | .param _ n :: ts, v :: vs => (n, v) :: expectedCaps ts vs
  | .param _ _ :: _, [] => []

/-- Substituting non-empty values free of both separators and newlines
always produces a path the pattern matches, with the expected captures. -/
lemma MatchRel_subst :
    ∀ (toks : List RouteTok) (vs : List Str),
      vs.length = (tokNames toks).length →
      (∀ v ∈ vs, v ≠ [] ∧ '/' ∉ v ∧ '\n' ∉ v) →
      MatchRel toks (subst toks vs) (expectedCaps toks vs) := by
  intro toks
  induction toks with
  | nil => intro vs _ _; exact ⟨Or.inl rfl, rfl⟩
  | cons t ts ih =>
    intro vs hlen hvs
    match t with
    | .lit l =>
      exact ⟨subst ts vs, rfl, ih vs (by simpa [tokNames] using hlen) hvs⟩
    | .param isP n =>
      match vs, hlen with
      | v :: vs2, hlen =>
        obtain ⟨hv, hsl, hnl⟩ := hvs v (by simp)
        refine ⟨v, subst ts vs2, expectedCaps ts vs2, rfl, hv, ?_, rfl, ?_⟩
        · intro c hc
          cases isP with
          | true => simp only [validChar]; simp; exact fun he => hnl (he ▸ hc)
          | false => simp only [validChar]; simp; exact fun he => hsl (he ▸ hc)
        · refine ih vs2 ?_ fun v2 hv2 => hvs v2 (by simp [hv2])
          simpa [tokNames] using hlen

/-- Any successful match decomposes the input as the substitution of its own
captured values, possibly followed by the single trailing newline `$`
tolerates, and captures exactly the parameter names in order. -/
lemma MatchRel_decomp :
    ∀ (toks : List RouteTok) (s : Str) (caps : Caps), MatchRel toks s caps →
      caps.map Prod.fst = tokNames toks ∧
        (s = subst toks (caps.map Prod.snd) ∨
          s = subst toks (caps.map Prod.snd) ++ ['\n']) := by
  intro toks
  induction toks with
  | nil =>
    intro s caps hm
    obtain ⟨hs, hc⟩ := hm
    subst hc
    rcases hs with hs | hs
    · exact ⟨rfl, Or.inl (by simp [subst, hs])⟩
    · exact ⟨rfl, Or.inr (by simp [subst, hs])⟩
  | cons t ts ih =>
    intro s caps hm
    match t, hm with
    | .lit l, ⟨s2, hs, hm2⟩ =>
      obtain ⟨hn, hd⟩ := ih s2 caps hm2
      refine ⟨by simpa [tokNames] using hn, ?_⟩
      rcases hd with hd | hd
      · exact Or.inl (by rw [hs, hd]; rfl)
      · exact Or.inr (by rw [hs, hd]; simp [subst])
    | .param isP n, ⟨v, s2, caps2, hs, _, _, hcaps, hm2⟩ =>
      obtain ⟨hn, hd⟩ := ih s2 caps2 hm2
      subst hcaps
      refine ⟨by simpa [tokNames] using hn, ?_⟩
      rcases hd with hd | hd
      · exact Or.inl (by rw [hs, hd]; rfl)
      · exact Or.inr (by rw [hs, hd]; simp [subst])

/-- Total occurrences of a character in the pattern's literals. -/
def litCount (c : Char) : List RouteTok → Nat
  | [] => 0
  | .lit l :: ts => l.count c + litCount c ts
  | .param _ _ :: ts => litCount c ts

lemma subst_count (c : Char) :
    ∀ (toks : List RouteTok) (vs : List Str),
      vs.length = (tokNames toks).length →
      (subst toks vs).count c = litCount c toks + (vs.map (List.count c)).sum := by
  intro toks
  induction toks with
  | nil =>
    intro vs hlen
    simp [tokNames] at hlen
    simp [subst, litCount, hlen]
  | cons t ts ih =>
    intro vs hlen
    match t with
    | .lit l =>
      simp only [subst, List.count_append, litCount]
      rw [ih vs (by simpa [tokNames] using hlen)]
      omega
    | .param isP n =>
      match vs, hlen with
      | v :: vs2, hlen =>
        simp only [subst, List.count_append, litCount, List.map_cons, List.sum_cons]
        rw [ih vs2 (by simpa [tokNames] using hlen)]
        omega

/-- If two slash-free runs are each followed by a slash (or by nothing on
both sides of an equal concatenation), the runs coincide. -/
lemma slashfree_pin :
    ∀ (p v x y : Str), '/' ∉ p → '/' ∉ v →
      (∃ t, x = '/' :: t) → (∃ t2, y = '/' :: t2) →
      p ++ x = v ++ y → p = v ∧ x = y := by
  intro p
  induction p with
  | nil =>
    intro v x y _ hv hx _ he
    match v with
    | [] => exact ⟨rfl, he⟩
    | b :: v2 =>
      obtain ⟨t, ht⟩ := hx
      rw [ht] at he
      simp only [List.nil_append, List.cons_append] at he
      injection he with h1 _
      exact absurd (show ('/' : Char) ∈ b :: v2 by rw [← h1]; exact List.mem_cons_self _ _) hv
  | cons a p2 ih =>
    intro v x y hp hv hx hy he
    match v with
    | [] =>
      obtain ⟨t2, ht2⟩ := hy
      rw [ht2] at he
      simp only [List.cons_append, List.nil_append] at he
      injection he with h1 _
      exact absurd (show ('/' : Char) ∈ a :: p2 by rw [h1]; exact List.mem_cons_self _ _) hp
    | b :: v2 =>
      simp only [List.cons_append] at he
      injection he with hab he2
      obtain ⟨hpv, hxy⟩ :=
        ih v2 x y (fun h => hp (List.mem_cons_of_mem _ h))
          (fun h => hv (List.mem_cons_of_mem _ h)) hx hy he2
      exact ⟨by rw [hab, hpv], hxy⟩

/-! ## Segment-aligned templates -/

/-- A parameter group is segment-aligned when the literal before it (if
any) ends in `/` and the literal after it (if any) starts with `/` — the
shape of every template in the repository's examples and tests, e.g.
`/hello/<name>` or `/mypath/<path:var>`. -/
def alignedB : List RouteTok → Bool
  | [] => true
  | [_] => true
  | .param _ _ :: .param _ _ :: _ => false
  | .param _ _ :: .lit l :: ts => (l.head? = some '/') && alignedB (.lit l :: ts)
  | .lit l :: .param b2 n2 :: ts => (l.getLast? = some '/') && alignedB (.param b2 n2 :: ts)
  | .lit _ :: .lit l2 :: ts => alignedB (.lit l2 :: ts)

lemma alignedB_tail :
    ∀ (t : RouteTok) (ts : List RouteTok), alignedB (t :: ts) = true → alignedB ts = true := by
  intro t ts h
  match t, ts with
  | _, [] => rfl
  | .param b n, .param b2 n2 :: ts2 => simp [alignedB] at h
  | .param b n, .lit l :: ts2 => simp [alignedB] at h; exact h.2
  | .lit l, .param b2 n2 :: ts2 => simp [alignedB] at h; exact h.2
  | .lit l, .lit l2 :: ts2 => simpa [alignedB] using h

/-- Uniqueness of captures on substituted paths of segment-aligned
templates: any match of `subst toks vs` whose captures are slash-free
captures exactly the substituted values. -/
lemma capsUnique :
    ∀ (toks : List RouteTok) (vs : List Str) (caps : Caps),
      alignedB toks = true →
      vs.length = (tokNames toks).length →
      (∀ v ∈ vs, v ≠ [] ∧ '/' ∉ v ∧ '\n' ∉ v) →
      MatchRel toks (subst toks vs) caps →
      (∀ pr ∈ caps, '/' ∉ pr.2) →
      caps = expectedCaps toks vs := by
  intro toks
  induction toks with
  | nil => intro vs caps _ _ _ hm _; exact hm.2
  | cons t ts ih =>
    intro vs caps hal hlen hvs hm hfree
    match t with
    | .lit l =>
      obtain ⟨s2, hs, hm2⟩ := hm
      have hs2 : s2 = subst ts vs := List.append_cancel_left (hs.symm.trans rfl)
      exact ih vs caps (alignedB_tail _ _ hal) (by simpa [tokNames] using hlen) hvs
        (hs2 ▸ hm2) hfree
    | .param isP n =>
      match vs, hlen with
      | v :: vs2, hlen =>
        obtain ⟨p, s2, caps2, hs, hpne, _, hcaps, hm2⟩ := hm
        obtain ⟨hvne, hvsl, hvnl⟩ := hvs v (by simp)
        have hpfree : '/' ∉ p := by
          have := hfree (n, p) (by rw [hcaps]; simp)
          simpa using this
        have key : p = v ∧ s2 = subst ts vs2 := by
          match ts with
          | [] =>
            obtain ⟨hend, -⟩ := hm2
            simp only [subst] at hs
            rw [List.append_nil] at hs
            rcases hend with h0 | h0
            · constructor
              · rw [h0, List.append_nil] at hs; exact hs.symm
              · rw [h0]; rfl
            · exfalso
              rw [h0] at hs
              exact hvnl (by rw [hs]; simp)
          | .lit l :: ts2 =>
            have hhead : l.head? = some '/' := by
              simp only [alignedB, Bool.and_eq_true] at hal
              exact (decide_eq_true_eq.mp hal.1)
            obtain ⟨l2, hl⟩ : ∃ l2, l = '/' :: l2 := by
              match l, hhead with
              | c :: l2, hh => exact ⟨l2, by simp at hh; rw [hh]⟩
            obtain ⟨s3, hs23, -⟩ := hm2
            have hx : ∃ tl, s2 = '/' :: tl := ⟨l2 ++ s3, by rw [hs23, hl]; rfl⟩
            have hy : ∃ tl, subst (RouteTok.lit l :: ts2) vs2 = '/' :: tl :=
              ⟨l2 ++ subst ts2 vs2, by simp only [subst, hl]; rfl⟩
            have := slashfree_pin p v s2 (subst (RouteTok.lit l :: ts2) vs2)
              hpfree hvsl hx hy (by rw [← hs]; rfl)
            exact this
          | .param b2 n2 :: ts2 => simp [alignedB] at hal
        obtain ⟨hpv, hs2⟩ := key
        rw [hcaps, hpv]
        have hrest : caps2 = expectedCaps ts vs2 := by
          refine ih vs2 caps2 (alignedB_tail _ _ hal) (by simpa [tokNames] using hlen)
            (fun v2 hv2 => hvs v2 (by simp [hv2])) (hs2 ▸ hm2) ?_
          intro pr hpr
          exact hfree pr (by rw [hcaps]; simp [hpr])
        rw [hrest]
        rfl

/-- The per-group well-formedness of a capture list: names in group order,
every capture non-empty and drawn from its group's character class — in
particular a plain `<name>` group never captures a `/`, while a `path:`
group may. -/
def CapsMatchKinds : List RouteTok → Caps → Prop
  | [], caps => caps = []
  | .lit _ :: ts, caps => CapsMatchKinds ts caps
  | .param isP n :: ts, caps =>
    ∃ v caps2, caps = (n, v) :: caps2 ∧ v ≠ [] ∧
      (∀ c ∈ v, validChar isP c = true) ∧ CapsMatchKinds ts caps2

lemma MatchRel_kinds :
    ∀ (toks : List RouteTok) (s : Str) (caps : Caps),
      MatchRel toks s caps → CapsMatchKinds toks caps := by
  intro toks
  induction toks with
  | nil => intro s caps hm; exact hm.2
  | cons t ts ih =>
    intro s caps hm
    match t, hm with
    | .lit l, ⟨s2, _, hm2⟩ => exact ih s2 caps hm2
    | .param isP n, ⟨v, s2, caps2, _, hv, hval, hcaps, hm2⟩ =>
      exact ⟨v, caps2, hcaps, hv, hval, ih s2 caps2 hm2⟩

lemma natsum_zero : ∀ (l : List Nat), l.sum = 0 ↔ ∀ x ∈ l, x = 0 := by
  intro l
  induction l with
  | nil => simp
  | cons a l ih => simp [ih]

/-- Regex metacharacters.  `compile_route` inserts the template's literal
text into the regex unescaped, so literals are matched verbatim exactly
when they avoid these characters; every template in the repository does. -/
def isMetaChar (c : Char) : Bool :=
  c = '.' || c = '^' || c = '$' || c = '*' || c = '+' || c = '?' ||
  c = '\x7b' || c = '\x7d' || c = '[' || c = ']' || c = '\\' ||
  c = '|' || c = '(' || c = ')'

/-- All literal runs are free of regex metacharacters. -/
def litsPlain : List RouteTok → Bool
  | [] => true
  | .lit l :: ts => l.all (fun c => !isMetaChar c) && litsPlain ts
  | .param _ _ :: ts => litsPlain ts

/-- On a segment-aligned template, matching the path obtained by
substituting non-empty separator-free values recovers exactly those
values. -/
lemma match_subst_exact (toks : List RouteTok) (vs : List Str)
    (hal : alignedB toks = true)
    (hlen : vs.length = (tokNames toks).length)
    (hvs : ∀ v ∈ vs, v ≠ [] ∧ '/' ∉ v ∧ '\n' ∉ v) :
    reMatch toks (subst toks vs) = some (expectedCaps toks vs) := by
  have hex := MatchRel_subst toks vs hlen hvs
  have hc : (reMatch toks (subst toks vs)).isSome :=
    reMatchF_complete toks (subst toks vs) (expectedCaps toks vs) _ (Nat.lt_succ_self _) hex
  obtain ⟨caps, hcaps⟩ := Option.isSome_iff_exists.mp hc
  have hm := reMatchF_sound _ toks (subst toks vs) caps hcaps
  obtain ⟨hnames, hdec⟩ := MatchRel_decomp toks (subst toks vs) caps hm
  have hlen2 : (caps.map Prod.snd).length = (tokNames toks).length := by
    rw [← hnames]; simp
  have hvszero : (vs.map (List.count '/')).sum = 0 := by
    rw [natsum_zero]
    intro x hx
    obtain ⟨v, hv, hxv⟩ := List.mem_map.mp hx
    rw [← hxv]
    exact List.count_eq_zero.mpr (hvs v hv).2.1
  have hc2 : litCount '/' toks + ((caps.map Prod.snd).map (List.count '/')).sum =
      litCount '/' toks + 0 := by
    have hl : (subst toks vs).count '/' = litCount '/' toks + 0 := by
      rw [subst_count '/' toks vs hlen, hvszero]
    have hr : (subst toks vs).count '/' =
        litCount '/' toks + ((caps.map Prod.snd).map (List.count '/')).sum := by
      rcases hdec with hd | hd
      · rw [hd] at hl ⊢
        rw [subst_count '/' toks (caps.map Prod.snd) hlen2]
      · rw [hd] at hl ⊢
        rw [List.count_append, subst_count '/' toks (caps.map Prod.snd) hlen2]
        have : List.count '/' ['\n'] = 0 := by decide
        omega
    omega
  have hfree : ∀ pr ∈ caps, '/' ∉ pr.2 := by
    intro pr hpr
    have hz : ((caps.map Prod.snd).map (List.count '/')).sum = 0 := by omega
    rw [natsum_zero] at hz
    exact List.count_eq_zero.mp
      (hz (List.count '/' pr.2) (by
        refine List.mem_map.mpr ⟨pr.2, List.mem_map.mpr ⟨pr, hpr, rfl⟩, rfl⟩))
  have := capsUnique toks vs caps hal hlen hvs hm hfree
  rw [hcaps, this]

/-! ## Request and response model (`core.py` 43-126)

`WSGIResponse._headers` is a Python dict (insertion-ordered, assignment
keeps an existing key's position), `_cookies` a `SimpleCookie` with the
same update discipline; both are modelled with `setA`. -/

structure WSGIResponse where
  headers : List (Str × Str)
  cookies : List (Str × Str × Str)
  status_code : Nat
deriving DecidableEq

/-- A freshly constructed `WSGIResponse()`: no headers, no cookies,
status 200. -/
def newResponse : WSGIResponse := { headers := [], cookies := [], status_code := 200 }

/-- Model of `WSGIResponse.set_header`. -/
def set_header (res : WSGIResponse) (k v : Str) : WSGIResponse :=
  { res with headers := setA k v res.headers }

/-- Model of `WSGIResponse.set_cookie` (path defaults to "/" at every call site in
the source). -/
def set_cookie (res : WSGIResponse) (k v p : Str) : WSGIResponse :=
  { res with cookies := setA k (v, p) res.cookies }

/-- Model of `WSGIResponse.redirect`: sets the status code and the `Location`
header. -/
def respRedirect (res : WSGIResponse) (location : Str) (status_code : Nat) : WSGIResponse :=
  set_header { res with status_code := status_code } (chars "Location") location

/-- Model of `TinyFrame.redirect`: builds a fresh response and marks it as a
redirect; the handler returns this object. -/
def app_redirect (location : Str) (status_code : Nat) : WSGIResponse :=
  respRedirect newResponse location status_code

/-- The request fields the dispatcher reads: `method` and `path` from the
environ, the parsed cookie jar, and the session attached by `wsgi_app`. -/
structure WSGIRequest where
  method : Str
  path : Str
  cookies : List (Str × Str)
  session : List (Str × Str)

/-- The three shapes a view's return value can take in
`TinyFrame._handle_request`: a pre-built `WSGIResponse` (e.g. a redirect),
a `(body, status)` tuple, or a raw body — with `raw none` modelling a view
that returns Python `None`. -/
inductive ViewResult where
  | respObj (r : WSGIResponse)
  | pair (body : Str) (status : Nat)
  | raw (body : Option Str)

/-- A view callable: it receives the request, the per-request response
object and the captured parameters, and returns its result together with
the (possibly mutated) per-request response object. -/
abbrev Handler := WSGIRequest → WSGIResponse → Caps → ViewResult × WSGIResponse

/-- One entry of `TinyFrame.routes`: `(compiled, view, allowed_methods)`. -/
abbrev RouteEntry := List RouteTok × Handler × List Str

/-- The `TinyFrame.sessions` store: session id → session mapping. -/
abbrev SessionStore := List (Str × List (Str × Str))

/-! ## Class-based views (`ClassView`, `core.py` 131-144) -/

/-- The per-HTTP-method operations a view class defines (Python looks them
up with `hasattr`/`getattr` by name). -/
abbrev ClassViewOps := List (Str × Handler)

/-- Model of `ClassView.dispatch_request`: select the operation named after the
lower-cased request method; absence yields the
`("405 Method Not Allowed", 405)` tuple. -/
def dispatch_request (ops : ClassViewOps) (request : WSGIRequest)
    (response : WSGIResponse) (kwargs : Caps) : ViewResult × WSGIResponse :=
  match getA (lowerStr request.method) ops with
  | some op => op request response kwargs
  | none => (.pair (chars "405 Method Not Allowed") 405, response)

/-! ## Sessions (`TinyFrame._get_session`, `core.py` 240-253) -/

/-- Model of `_get_session`: `fresh` stands for the `str(uuid.uuid4())` value minted
on this call.  A present, non-empty (Python truthiness) and known session
id returns the stored mapping untouched; anything else stores a fresh
empty mapping and sets the cookie (path "/"). -/
def get_session (sessions : SessionStore) (fresh : Str) (request : WSGIRequest)
    (response : WSGIResponse) : List (Str × Str) × SessionStore × WSGIResponse :=
  let minted : List (Str × Str) × SessionStore × WSGIResponse :=
    ([], setA fresh [] sessions,
      set_cookie response (chars "session_id") fresh (chars "/"))
  match getA (chars "session_id") request.cookies with
  | some sid =>
    if sid = [] then minted
    else
      match getA sid sessions with
      | some sess => (sess, sessions, response)
      | none => minted
  | none => minted

/-! ## Dispatch (`TinyFrame._handle_request`, `core.py` 256-284) -/

/-- The route scan with its `found_route` accumulator: the first entry
whose pattern matches the path and whose method list (case-insensitively)
allows the request method is invoked and its result normalized; a path
match with a method mismatch only records `found_route` and the scan
continues; an exhausted scan yields the 405 tuple when some path matched
and `(None, None)` otherwise. -/
def handleScan : List RouteEntry → WSGIRequest → WSGIResponse → Bool →
    Option Str × Option Nat × WSGIResponse
  | [], _, response, found =>
    if found then (some (chars "405 Method Not Allowed"), some 405, response)
    else (none, none, response)
  | (pat, view, methods) :: rest, request, response, found =>
    match reMatch pat request.path with
    | some kwargs =>
      if upperStr request.method ∈ methods.map upperStr then
        let rr := view request response kwargs
        match rr.1 with
        | .respObj r => (some [], some r.status_code, r)
        | .pair b st => (some b, some st, rr.2)
        | .raw b => (b, some rr.2.status_code, rr.2)
      else handleScan rest request response true
    | none => handleScan rest request response found

/-- Model of `TinyFrame._handle_request`. -/
def handle_request (routes : List RouteEntry) (request : WSGIRequest)
    (response : WSGIResponse) : Option Str × Option Nat × WSGIResponse :=
  handleScan routes request response false

/-- Specification-side selector: the first route whose pattern matches the
path and whose methods (case-insensitively) allow the method. -/
def firstMatchAllowed : List RouteEntry → Str → Str → Option (Handler × Caps)
  | [], _, _ => none
  | (pat, view, methods) :: rest, method, path =>
    match reMatch pat path with
    | some kwargs =>
      if upperStr method ∈ methods.map upperStr then some (view, kwargs)
      else firstMatchAllowed rest method path
    | none => firstMatchAllowed rest method path

/-- Specification-side: does any route's pattern match the path at all? -/
def anyPathMatch (routes : List RouteEntry) (path : Str) : Bool :=
  routes.any fun e => (reMatch e.1 path).isSome

/-- Specification-side normalization of the three view-result shapes into
the canonical `(body, status, response)` triple. -/
def normalizeResult (rr : ViewResult × WSGIResponse) :
    Option Str × Option Nat × WSGIResponse :=
  match rr.1 with
  | .respObj r => (some [], some r.status_code, r)
  | .pair b st => (some b, some st, rr.2)
  | .raw b => (b, some rr.2.status_code, rr.2)

/-! ## WSGI emission (`TinyFrame.wsgi_app`, `core.py` 290-321) -/

/-- Model of `TinyFrame._http_status_message` (`core.py` 323-380). -/
def http_status_message (status_code : Nat) : Str :=
  match status_code with
  | 100 => chars "Continue"
  | 101 => chars "Switching Protocols"
  | 200 => chars "OK"
  | 201 => chars "Created"
  | 202 => chars "Accepted"
  | 203 => chars "Non-Authoritative Information"
  | 204 => chars "No Content"
  | 205 => chars "Reset Content"
  | 206 => chars "Partial Content"
  | 300 => chars "Multiple Choices"
  | 301 => chars "Moved Permanently"
  | 302 => chars "Found"
  | 303 => chars "See Other"
  | 304 => chars "Not Modified"
  | 305 => chars "Use Proxy"
  | 307 => chars "Temporary Redirect"
  | 400 => chars "Bad Request"
  | 401 => chars "Unauthorized"
  | 402 => chars "Payment Required"
  | 403 => chars "Forbidden"
  | 404 => chars "Not Found"
  | 405 => chars "Method Not Allowed"
  | 406 => chars "Not Acceptable"
  | 407 => chars "Proxy Authentication Required"
  | 408 => chars "Request Timeout"
  | 409 => chars "Conflict"
  | 410 => chars "Gone"
  | 411 => chars "Length Required"
  | 412 => chars "Precondition Failed"
  | 413 => chars "Payload Too Large"
  | 414 => chars "URI Too Long"
  | 415 => chars "Unsupported Media Type"
  | 416 => chars "Range Not Satisfiable"
  | 417 => chars "Expectation Failed"
  | 418 => chars "I'm a teapot"
  | 422 => chars "Unprocessable Entity"
  | 425 => chars "Too Early"
  | 426 => chars "Upgrade Required"
  | 428 => chars "Precondition Required"
  | 429 => chars "Too Many Requests"
  | 431 => chars "Request Header Fields Too Large"
  | 451 => chars "Unavailable For Legal Reasons"
  | 500 => chars "Internal Server Error"
  | 501 => chars "Not Implemented"
  | 502 => chars "Bad Gateway"
  | 503 => chars "Service Unavailable"
  | 504 => chars "Gateway Timeout"
  | 505 => chars "HTTP Version Not Supported"
  | 506 => chars "Variant Also Negotiates"
  | 507 => chars "Insufficient Storage"
  | 508 => chars "Loop Detected"
  | 510 => chars "Not Extended"
  | 511 => chars "Network Authentication Required"
  | _ => chars "Unknown Status Code"

/-- One `Set-Cookie` header line per outgoing cookie,
`morsel.OutputString()` for a plain value: `key=value; Path=path`. -/
def cookieLine (c : Str × Str × Str) : Str × Str :=
  (chars "Set-Cookie", c.1 ++ chars "=" ++ c.2.1 ++ chars "; Path=" ++ c.2.2)

/-- The status codes for which `wsgi_app` suppresses the body. -/
def redirectStatus (n : Nat) : Bool :=
  n == 301 || n == 302 || n == 303 || n == 307 || n == 308

/-- What `wsgi_app` hands to `start_response` plus the returned body. -/
structure WSGIOutput where
  status : Nat
  statusLine : Str
  headers : List (Str × Str)
  body : Str
deriving DecidableEq

/-- Model of `TinyFrame.wsgi_app`: attach the session (minting `fresh` if needed),
dispatch, replace a `None` body by 404, emit the status line, the
`Content-Type` header followed by the response object's headers and one
`Set-Cookie` line per cookie, and suppress the body on redirect codes.
Returns the output together with the updated session store. -/
def wsgi_app (routes : List RouteEntry) (sessions : SessionStore) (fresh : Str)
    (req : WSGIRequest) : WSGIOutput × SessionStore :=
  let gs := get_session sessions fresh req newResponse
  let req2 := { req with session := gs.1 }
  let t := handle_request routes req2 gs.2.2
  let status := match t.1 with | none => 404 | some _ => t.2.1.getD 200
  let body := match t.1 with | none => chars "404 Not Found" | some b => b
  let res := t.2.2
  ({ status := status,
     statusLine := (Nat.repr status).data ++ (' ' :: http_status_message status),
     headers := (chars "Content-Type", chars "text/html") ::
       (res.headers ++ res.cookies.map cookieLine),
     body := if redirectStatus status then [] else body }, gs.2.1)

/-! ## Query strings and form bodies (`core.py` 44-102)

`WSGIRequest.__init__` sets `query_params = parse_qs(QUERY_STRING)` — the
raw `parse_qs` result, every value a list.  `WSGIRequest.form` parses the
POST body with `parse_qs` and then collapses singleton lists to scalars.
`parse_qs` is modelled at byte-for-byte fidelity for ASCII input: split on
`&`, split each field at the first `=`, drop fields with no `=` or an
empty raw value, `+` to space and `%XX` decoding (multi-byte UTF-8 escape
sequences are out of the modelled fragment; no claim involves them). -/

def hexVal (c : Char) : Option Nat :=
  if c.isDigit then some (c.toNat - '0'.toNat)
  else if 'a' ≤ c ∧ c ≤ 'f' then some (c.toNat - 'a'.toNat + 10)
  else if 'A' ≤ c ∧ c ≤ 'F' then some (c.toNat - 'A'.toNat + 10)
  else none

/-- Model of `urllib.parse.unquote_plus` on ASCII input: `+` becomes a space,
`%XX` with two hex digits decodes, anything else stays. -/
def pctDecode : Str → Str
  | [] => []
  | '%' :: h1 :: h2 :: rest =>
    match hexVal h1, hexVal h2 with
    | some a, some b => Char.ofNat (16 * a + b) :: pctDecode rest
    | _, _ => '%' :: pctDecode (h1 :: h2 :: rest)
  | '+' :: rest => ' ' :: pctDecode rest
  | c :: rest => c :: pctDecode rest

/-- Append one decoded value under a key, preserving first-appearance
order (Python `dict` + `list.append`). -/
def addQSPair (k v : Str) : List (Str × List Str) → List (Str × List Str)
  | [] => [(k, [v])]
  | (k2, vs) :: rest =>
    if k = k2 then (k2, vs ++ [v]) :: rest else (k2, vs) :: addQSPair k v rest

/-- Split a field at its first `=`; `none` when there is no `=`. -/
def parseField (f : Str) : Option (Str × Str) :=
  match f.dropWhile (fun c => c ≠ '=') with
  | '=' :: v => some (f.takeWhile (fun c => c ≠ '='), v)
  | _ => none

/-- Model of `urllib.parse.parse_qs` (default arguments: blank values dropped,
separator `&`). -/
def parse_qs (s : Str) : List (Str × List Str) :=
  (List.splitOn '&' s).foldl
    (fun acc f =>
      match parseField f with
      | some (k, v) => if v = [] then acc else addQSPair (pctDecode k) (pctDecode v) acc
      | none => acc)
    []

/-- The Python value a lookup surfaces: a plain string or a list. -/
inductive PyVal where
  | str (s : Str)
  | list (l : List Str)
deriving DecidableEq

/-- The collapsing comprehension in `WSGIRequest.form`:
`value[0] if len(value) == 1 else value`. -/
def collapse (vs : List Str) : PyVal :=
  match vs with
  | [v] => .str v
  | _ => .list vs

/-- The body of `WSGIRequest.form` after `parse_qs`. -/
def formOf (parsed : List (Str × List Str)) : List (Str × PyVal) :=
  parsed.map fun kv => (kv.1, collapse kv.2)

/-- Model of `request.form`: only POST requests read the body. -/
def form (method : Str) (body : Str) : List (Str × PyVal) :=
  if upperStr method = chars "POST" then formOf (parse_qs body) else []

/-- What `request.query_params[k]` surfaces: always a list. -/
def querySurface (query_string k : Str) : Option PyVal :=
  (getA k (parse_qs query_string)).map PyVal.list

/-- What `request.form[k]` surfaces. -/
def formSurface (method body k : Str) : Option PyVal :=
  getA k (form method body)

/-! ## Reverse URL generation (`TinyFrame.url_for`, `core.py` 181-200) -/

/-- How a `url_for` call ends when it does not return a URL.
`nameErrorUrlencode` models the `NameError` that line 198 of `core.py`
raises: it calls `urlencode(params)` for the leftover parameters, but
`urlencode` is neither imported nor defined anywhere in the module. -/
inductive UrlForError where
  | unknownRoute
  | missingParam (name : Str)
  | nameErrorUrlencode
deriving DecidableEq

/-- Remove one binding, modelling `dict.pop`. -/
def removeKey (k : Str) : List (Str × Str) → List (Str × Str)
  | [] => []
  | (k2, v) :: rest => if k = k2 then rest else (k2, v) :: removeKey k rest

/-- The `re.sub` of `url_for`: walk the template, copy literals, replace
each placeholder by its parameter (popping it), and raise on a missing
parameter.  Returns the built URL and the unconsumed parameters. -/
def substParams : List RouteTok → List (Str × Str) →
    Except UrlForError (Str × List (Str × Str))
  | [], params => .ok ([], params)
  | .lit l :: ts, params =>
    match substParams ts params with
    | .ok (u, rest) => .ok (l ++ u, rest)
    | .error e => .error e
  | .param _ n :: ts, params =>
    match getA n params with
    | some v =>
      match substParams ts (removeKey n params) with
      | .ok (u, rest) => .ok (v ++ u, rest)
      | .error e => .error e
    | none => .error (.missingParam n)

/-- Model of `TinyFrame.url_for`: unknown name and missing parameter raise
`ValueError`; leftover parameters reach the `urlencode` call, which
raises `NameError` because of the missing import. -/
def url_for (named_routes : List (Str × Str)) (route_name : Str)
    (params : List (Str × Str)) : Except UrlForError Str :=
  match getA route_name named_routes with
  | none => .error .unknownRoute
  | some pattern =>
    match substParams (scanTmpl pattern) params with
    | .error e => .error e
    | .ok (url, rest) =>
      if rest = [] then .ok url else .error .nameErrorUrlencode

/-! ## Route registration (`TinyFrame.route` / `add_route`) -/

/-- Registration appends `(compile_route(path), view, methods or ["GET"])`
to the route table; a failing compile (duplicate parameter name) raises
out of the registration call, modelled by `none`. -/
def route_register (routes : List RouteEntry) (route_str : Str) (view : Handler)
    (methods : Option (List Str)) : Option (List RouteEntry) :=
  match compile_route route_str with
  | some compiled => some (routes ++ [(compiled, view, methods.getD [chars "GET"])])
  | none => none

/-! ## Concrete applications used to exercise the model

These mirror the spec's acceptance scenarios and the repository's
examples/tests. -/

/-- A request with the given method and path, no cookies, no session. -/
def reqDemo (m p : String) : WSGIRequest := ⟨chars m, chars p, [], []⟩

/-- A view returning a raw string body. -/
def hDemoBody : Handler := fun _ res _ => (.raw (some (chars "GET only")), res)

/-- A view returning `app.redirect("/success")` — a pre-built response
object, ignoring the per-request response. -/
def hDemoRedirect : Handler := fun _ res _ =>
  (.respObj (app_redirect (chars "/success") 302), res)

/-- A view that sets a header and a status on the per-request response and
then returns Python `None`. -/
def hDemoNone : Handler := fun _ res _ =>
  (.raw none, set_header { res with status_code := 500 } (chars "X-Test") (chars "1"))

def routesOnlyGet : List RouteEntry := [(scanTmpl (chars "/onlyget"), hDemoBody, [chars "GET"])]

def routesRedirect : List RouteEntry := [(scanTmpl (chars "/"), hDemoRedirect, [chars "GET"])]

def routesNone : List RouteEntry := [(scanTmpl (chars "/"), hDemoNone, [chars "GET"])]

/-- A class-based view implementing only `get`. -/
def opsGetOnly : ClassViewOps := [(chars "get", hDemoBody)]

/-- Route table with `/myview` registered with both GET and POST allowed, dispatching to the
get-only class view. -/
def routesClassView : List RouteEntry :=
  [(scanTmpl (chars "/myview"), dispatch_request opsGetOnly, [chars "GET", chars "POST"])]

/-- The `named_routes` mapping with `/user/<name>` registered as `user_profile`. -/
def namedDemo : List (Str × Str) := [(chars "user_profile", chars "/user/<name>")]

/-! ## Helper lemmas about the dispatcher -/

lemma getA_setA_self (k : Str) (v : α) :
    ∀ (l : List (Str × α)), getA k (setA k v l) = some v := by
  intro l
  induction l with
  | nil => simp [setA, getA]
  | cons e rest ih =>
    obtain ⟨k2, v2⟩ := e
    by_cases hk : k = k2
    · simp [setA, getA, hk]
    · simp [setA, getA, hk, ih]

lemma getA_formOf (k : Str) :
    ∀ (l : List (Str × List Str)), getA k (formOf l) = (getA k l).map collapse := by
  intro l
  induction l with
  | nil => simp [formOf, getA]
  | cons e rest ih =>
    obtain ⟨k2, vs⟩ := e
    by_cases hk : k = k2
    · simp [formOf, getA, hk]
    · simp only [formOf, List.map_cons, getA, hk, if_neg hk]
      exact ih

/-- The route scan, split into selection and normalization: the scan
result is the normalized result of the first path-and-method match, and
otherwise 405 or fall-through according to whether any path matched. -/
lemma handleScan_spec :
    ∀ (routes : List RouteEntry) (request : WSGIRequest) (response : WSGIResponse)
      (found : Bool),
      handleScan routes request response found =
        match firstMatchAllowed routes request.method request.path with
        | some vc => normalizeResult (vc.1 request response vc.2)
        | none =>
          if found || anyPathMatch routes request.path then
            (some (chars "405 Method Not Allowed"), some 405, response)
          else (none, none, response) := by
  intro routes
  induction routes with
  | nil =>
    intro request response found
    simp [handleScan, firstMatchAllowed, anyPathMatch]
  | cons e rest ih =>
    intro request response found
    obtain ⟨pat, view, methods⟩ := e
    cases hre : reMatch pat request.path with
    | some kwargs =>
      by_cases hmem : upperStr request.method ∈ methods.map upperStr
      · simp [handleScan, firstMatchAllowed, hre, hmem, normalizeResult]
      · have hany : anyPathMatch ((pat, view, methods) :: rest) request.path = true := by
          simp [anyPathMatch, hre]
        simp only [handleScan, firstMatchAllowed, hre, if_neg hmem, hany, Bool.or_true]
        rw [ih request response true]
        cases firstMatchAllowed rest request.method request.path <;> simp
    | none =>
      have hany : anyPathMatch ((pat, view, methods) :: rest) request.path =
          anyPathMatch rest request.path := by
        simp [anyPathMatch, hre]
      simp only [handleScan, firstMatchAllowed, hre, hany]
      exact ih request response found

lemma firstMatchAllowed_none_of_noPath :
    ∀ (routes : List RouteEntry) (method path : Str),
      anyPathMatch routes path = false → firstMatchAllowed routes method path = none := by
  intro routes
  induction routes with
  | nil => intro method path _; rfl
  | cons e rest ih =>
    intro method path h
    obtain ⟨pat, view, methods⟩ := e
    have h2 : ((reMatch pat path).isSome || anyPathMatch rest path) = false := h
    cases hre : reMatch pat path with
    | some kwargs => rw [hre] at h2; simp at h2
    | none =>
      rw [hre] at h2
      simp only [Option.isSome_none, Bool.false_or] at h2
      simp only [firstMatchAllowed, hre]
      exact ih method path h2

/-! ## Claim theorems -/

/-- C1: for every request the dispatcher scans the route table in
registration order and invokes the first route whose pattern matches the
path and whose allowed methods contain the request method
case-insensitively; a path match with a method mismatch is skipped and the
scan continues; if some path matched but no method was allowed the outcome
is 405 with body "405 Method Not Allowed", and if no path matched at all
the emitted response is 404 with body "404 Not Found". -/
theorem dispatch_scan_and_status_codes :
    ∀ (routes : List RouteEntry) (request : WSGIRequest) (response : WSGIResponse)
      (sessions : SessionStore) (fresh : Str),
      (handle_request routes request response =
        match firstMatchAllowed routes request.method request.path with
        | some vc => normalizeResult (vc.1 request response vc.2)
        | none =>
          if anyPathMatch routes request.path then
            (some (chars "405 Method Not Allowed"), some 405, response)
          else (none, none, response)) ∧
      (anyPathMatch routes request.path = false →
        (wsgi_app routes sessions fresh request).1.status = 404 ∧
        (wsgi_app routes sessions fresh request).1.body = chars "404 Not Found" ∧
        (wsgi_app routes sessions fresh request).1.statusLine = chars "404 Not Found") ∧
      (anyPathMatch routes request.path = true →
        firstMatchAllowed routes request.method request.path = none →
        (wsgi_app routes sessions fresh request).1.status = 405 ∧
        (wsgi_app routes sessions fresh request).1.body = chars "405 Method Not Allowed" ∧
        (wsgi_app routes sessions fresh request).1.statusLine =
          chars "405 Method Not Allowed") := by
  intro routes request response sessions fresh
  refine ⟨?_, ?_, ?_⟩
  · rw [handle_request, handleScan_spec]
    simp
  · intro hno
    have hfm := firstMatchAllowed_none_of_noPath routes request.method request.path hno
    simp only [wsgi_app, handle_request]
    rw [handleScan_spec]
    simp [hfm, hno]
    decide
  · intro hany hfm
    simp only [wsgi_app, handle_request]
    rw [handleScan_spec]
    simp [hfm, hany]
    decide

/-- Witness for C1 at the spec's acceptance scenario: `/onlyget`
registered for GET only, requested with POST, yields 405 with body
"405 Method Not Allowed". -/
theorem dispatch_scan_and_status_codes_witness :
    anyPathMatch routesOnlyGet (chars "/onlyget") = true ∧
    ((wsgi_app routesOnlyGet [] (chars "sid0") (reqDemo "POST" "/onlyget")).1.status = 405 ∧
      (wsgi_app routesOnlyGet [] (chars "sid0") (reqDemo "POST" "/onlyget")).1.body =
        chars "405 Method Not Allowed" ∧
      (wsgi_app routesOnlyGet [] (chars "sid0") (reqDemo "POST" "/onlyget")).1.statusLine =
        chars "405 Method Not Allowed") :=
  ⟨by decide,
    (dispatch_scan_and_status_codes routesOnlyGet (reqDemo "POST" "/onlyget") newResponse []
      (chars "sid0")).2.2 (by decide) (by rfl)⟩

/-- C2 counterexample: the claim fails for the pre-built-response shape.
The session cookie is set on the per-request response before the handler
runs, but when the handler returns a pre-built redirect response, the
emitted header list contains no `Set-Cookie` line at all: the per-request
response's cookie state is lost. -/
theorem prebuilt_response_drops_session_cookie :
    (get_session [] (chars "abc") (reqDemo "GET" "/") newResponse).2.2.cookies =
      [(chars "session_id", chars "abc", chars "/")] ∧
    (∀ p ∈ (wsgi_app routesRedirect [] (chars "abc") (reqDemo "GET" "/")).1.headers,
      p.1 ≠ chars "Set-Cookie") := by
  constructor
  · decide
  · decide

/-- C2 (amended): the dispatcher recognizes all three handler return
shapes and produces one canonical (body, status, response-object) triple;
for a raw body or a (body, status) tuple the per-request response object —
with every header and cookie set on it before or during handler execution,
including the session cookie — is the one whose headers and cookies are
emitted; but a pre-built `WSGIResponse` returned by the handler replaces
the per-request response entirely, so only the pre-built object's headers
and cookies are emitted and state set on the per-request response
(including the session cookie) is dropped. -/
theorem result_shapes_normalization :
    ∀ (hnd : Handler) (tmpl : List RouteTok) (sessions : SessionStore) (fresh : Str)
      (req : WSGIRequest) (caps : Caps),
      reMatch tmpl req.path = some caps →
      (handle_request [(tmpl, hnd, [req.method])]
          { req with session := (get_session sessions fresh req newResponse).1 }
          (get_session sessions fresh req newResponse).2.2 =
        normalizeResult
          (hnd { req with session := (get_session sessions fresh req newResponse).1 }
            (get_session sessions fresh req newResponse).2.2 caps)) ∧
      ((wsgi_app [(tmpl, hnd, [req.method])] sessions fresh req).1.headers =
        (chars "Content-Type", chars "text/html") ::
          ((normalizeResult
              (hnd { req with session := (get_session sessions fresh req newResponse).1 }
                (get_session sessions fresh req newResponse).2.2 caps)).2.2.headers ++
            (normalizeResult
              (hnd { req with session := (get_session sessions fresh req newResponse).1 }
                (get_session sessions fresh req newResponse).2.2 caps)).2.2.cookies.map
              cookieLine)) ∧
      (∀ rr : ViewResult × WSGIResponse,
        (∀ b st, rr.1 = .pair b st → (normalizeResult rr).2.2 = rr.2) ∧
        (∀ b, rr.1 = .raw b → (normalizeResult rr).2.2 = rr.2) ∧
        (∀ r, rr.1 = .respObj r → (normalizeResult rr).2.2 = r)) := by
  intro hnd tmpl sessions fresh req caps hre
  have hkey : ∀ (res : WSGIResponse),
      handle_request [(tmpl, hnd, [req.method])]
        { req with session := (get_session sessions fresh req newResponse).1 } res =
      normalizeResult
        (hnd { req with session := (get_session sessions fresh req newResponse).1 } res caps) := by
    intro res
    rw [handle_request, handleScan_spec]
    have hfm : firstMatchAllowed [(tmpl, hnd, [req.method])]
        ({ req with session := (get_session sessions fresh req newResponse).1 }).method
        ({ req with session := (get_session sessions fresh req newResponse).1 }).path =
        some (hnd, caps) := by
      show firstMatchAllowed [(tmpl, hnd, [req.method])] req.method req.path = some (hnd, caps)
      simp only [firstMatchAllowed, hre]
      rw [if_pos]
      simp
    rw [hfm]
  refine ⟨hkey _, ?_, ?_⟩
  · simp only [wsgi_app]
    rw [hkey _]
  · intro rr
    refine ⟨?_, ?_, ?_⟩
    · intro b st h; simp [normalizeResult, h]
    · intro b h; simp [normalizeResult, h]
    · intro r h; simp [normalizeResult, h]

/-- Witness for C2's amended theorem at a concrete single-route app. -/
theorem result_shapes_normalization_witness :
    reMatch (scanTmpl (chars "/")) (reqDemo "GET" "/").path = some [] ∧
    (wsgi_app [(scanTmpl (chars "/"), hDemoRedirect, [(reqDemo "GET" "/").method])] []
        (chars "abc") (reqDemo "GET" "/")).1.headers =
      (chars "Content-Type", chars "text/html") ::
        ((normalizeResult
            (hDemoRedirect
              { reqDemo "GET" "/" with
                session := (get_session [] (chars "abc") (reqDemo "GET" "/") newResponse).1 }
              (get_session [] (chars "abc") (reqDemo "GET" "/") newResponse).2.2 [])).2.2.headers ++
          (normalizeResult
            (hDemoRedirect
              { reqDemo "GET" "/" with
                session := (get_session [] (chars "abc") (reqDemo "GET" "/") newResponse).1 }
              (get_session [] (chars "abc") (reqDemo "GET" "/") newResponse).2.2 [])).2.2.cookies.map
            cookieLine) :=
  ⟨by decide,
    (result_shapes_normalization hDemoRedirect (scanTmpl (chars "/")) [] (chars "abc")
      (reqDemo "GET" "/") [] (by decide)).2.1⟩

/-- C3 counterexample: the template `/u/<a>x<b>` substituted with the
non-empty separator-free values `a = "1"`, `b = "2x3"` compiles and
matches the substituted path `/u/1x2x3`, but the greedy matcher captures
`a = "1x2"`, `b = "3"` — not the substituted values. -/
theorem greedy_capture_not_substitution :
    (∀ v ∈ [chars "1", chars "2x3"], v ≠ [] ∧ '/' ∉ v) ∧
    compile_route (chars "/u/<a>x<b>") = some (scanTmpl (chars "/u/<a>x<b>")) ∧
    subst (scanTmpl (chars "/u/<a>x<b>")) [chars "1", chars "2x3"] = chars "/u/1x2x3" ∧
    reMatch (scanTmpl (chars "/u/<a>x<b>"))
        (subst (scanTmpl (chars "/u/<a>x<b>")) [chars "1", chars "2x3"]) =
      some [(chars "a", chars "1x2"), (chars "b", chars "3")] ∧
    reMatch (scanTmpl (chars "/u/<a>x<b>"))
        (subst (scanTmpl (chars "/u/<a>x<b>")) [chars "1", chars "2x3"]) ≠
      some (expectedCaps (scanTmpl (chars "/u/<a>x<b>")) [chars "1", chars "2x3"]) := by
  decide

/-- C3 (amended): restricted to segment-aligned templates — each
placeholder bounded by `/` (or the template's ends) — with
metacharacter-free literals, compiling and then matching the path obtained
by substituting each placeholder with any non-empty value containing
neither `/` nor a newline succeeds and captures exactly the substituted
values.  Every match respects the group classes: a plain `<name>` capture
never contains `/` while `<path:name>` captures may (the `/files/...`
instances below).  The pattern is anchored at both ends: an accepted path
is exactly the concatenation of its literals and captures, except that the
compiled `$` also tolerates one trailing newline. -/
theorem segment_aligned_roundtrip :
    ∀ (tmpl : Str) (toks : List RouteTok) (vs : List Str),
      compile_route tmpl = some toks →
      litsPlain toks = true →
      alignedB toks = true →
      vs.length = (tokNames toks).length →
      (∀ v ∈ vs, v ≠ [] ∧ '/' ∉ v ∧ '\n' ∉ v) →
      (reMatch toks (subst toks vs) = some (expectedCaps toks vs) ∧
        (∀ s caps, reMatch toks s = some caps → CapsMatchKinds toks caps) ∧
        (∀ s caps, reMatch toks s = some caps →
          s = subst toks (caps.map Prod.snd) ∨
            s = subst toks (caps.map Prod.snd) ++ ['\n']) ∧
        reMatch (scanTmpl (chars "/files/<path:p>")) (chars "/files/a/b") =
          some [(chars "p", chars "a/b")] ∧
        reMatch (scanTmpl (chars "/files/<p>")) (chars "/files/a/b") = none) := by
  intro tmpl toks vs _ _ hal hlen hvs
  refine ⟨match_subst_exact toks vs hal hlen hvs, ?_, ?_, by decide, by decide⟩
  · intro s caps h
    exact MatchRel_kinds toks s caps (reMatchF_sound _ toks s caps h)
  · intro s caps h
    exact (MatchRel_decomp toks s caps (reMatchF_sound _ toks s caps h)).2

/-- Witness for C3's amended theorem: `/user/<name>` with the value
`JohnDoe` matches `/user/JohnDoe` capturing exactly `name = JohnDoe`. -/
theorem segment_aligned_roundtrip_witness :
    compile_route (chars "/user/<name>") = some (scanTmpl (chars "/user/<name>")) ∧
    (reMatch (scanTmpl (chars "/user/<name>"))
        (subst (scanTmpl (chars "/user/<name>")) [chars "JohnDoe"]) =
      some (expectedCaps (scanTmpl (chars "/user/<name>")) [chars "JohnDoe"]) ∧
      (∀ s caps, reMatch (scanTmpl (chars "/user/<name>")) s = some caps →
        CapsMatchKinds (scanTmpl (chars "/user/<name>")) caps) ∧
      (∀ s caps, reMatch (scanTmpl (chars "/user/<name>")) s = some caps →
        s = subst (scanTmpl (chars "/user/<name>")) (caps.map Prod.snd) ∨
          s = subst (scanTmpl (chars "/user/<name>")) (caps.map Prod.snd) ++ ['\n']) ∧
      reMatch (scanTmpl (chars "/files/<path:p>")) (chars "/files/a/b") =
        some [(chars "p", chars "a/b")] ∧
      reMatch (scanTmpl (chars "/files/<p>")) (chars "/files/a/b") = none) :=
  ⟨by decide,
    segment_aligned_roundtrip (chars "/user/<name>") (scanTmpl (chars "/user/<name>"))
      [chars "JohnDoe"] (by decide) (by decide) (by decide) (by decide) (by decide)⟩

/-- C4: `url_for` raises `ValueError` for an unknown route name and for a
missing placeholder parameter, and substitutes supplied values into the
pattern (`/user/<name>` under `user_profile` gives `/user/JohnDoe`).  But
the claim's final part is broken in the code: leftover keyword arguments
reach `url += '?' + urlencode(params)` (`core.py` line 198) and
`urlencode` is never imported, so the call raises `NameError` instead of
appending a query string. -/
theorem url_for_missing_urlencode_import :
    url_for namedDemo (chars "user_profile") [(chars "name", chars "JohnDoe")] =
      .ok (chars "/user/JohnDoe") ∧
    url_for namedDemo (chars "missing") [] = .error .unknownRoute ∧
    url_for namedDemo (chars "user_profile") [] =
      .error (.missingParam (chars "name")) ∧
    url_for namedDemo (chars "user_profile")
        [(chars "name", chars "JohnDoe"), (chars "page", chars "2")] =
      .error .nameErrorUrlencode :=
  ⟨rfl, rfl, rfl, rfl⟩

/-- C5 counterexample: for the same raw key/value data `a=1`, the
query-parameter accessor surfaces the list `["1"]` (raw `parse_qs`
output) while the form accessor surfaces the scalar `"1"` — the two
accessors do not apply the same collapsing rule. -/
theorem query_form_collapse_diverge :
    querySurface (chars "a=1") (chars "a") = some (PyVal.list [chars "1"]) ∧
    formSurface (chars "POST") (chars "a=1") (chars "a") = some (PyVal.str (chars "1")) ∧
    querySurface (chars "a=1") (chars "a") ≠
      formSurface (chars "POST") (chars "a=1") (chars "a") := by
  decide

/-- C5 (amended): only the form accessor collapses — a key with exactly
one value surfaces as a scalar string and a key with several values as the
ordered list — while the query-parameter accessor surfaces the raw
`parse_qs` list for every key; the two accessors therefore agree exactly
on keys with two or more values and diverge on single-valued keys. -/
theorem collapse_rule_form_vs_query :
    ∀ (raw k : Str) (vs : List Str),
      getA k (parse_qs raw) = some vs →
      querySurface raw k = some (.list vs) ∧
      formSurface (chars "POST") raw k = some (collapse vs) ∧
      (∀ v, vs = [v] → formSurface (chars "POST") raw k = some (.str v)) ∧
      (2 ≤ vs.length → formSurface (chars "POST") raw k = querySurface raw k) := by
  intro raw k vs h
  have hq : querySurface raw k = some (.list vs) := by
    simp [querySurface, h]
  have hf : formSurface (chars "POST") raw k = some (collapse vs) := by
    have hcond : upperStr (chars "POST") = chars "POST" := by decide
    have hform : form (chars "POST") raw = formOf (parse_qs raw) := by
      show (if upperStr (chars "POST") = chars "POST" then formOf (parse_qs raw) else []) =
        formOf (parse_qs raw)
      rw [if_pos hcond]
    show getA k (form (chars "POST") raw) = some (collapse vs)
    rw [hform, getA_formOf, h]
    rfl
  refine ⟨hq, hf, ?_, ?_⟩
  · intro v hv
    rw [hf, hv]
    rfl
  · intro h2
    rw [hf, hq]
    match vs, h2 with
    | a :: b :: rest, _ => rfl

/-- Witness for C5's amended theorem on the multi-valued key `a=1&a=2`. -/
theorem collapse_rule_form_vs_query_witness :
    getA (chars "a") (parse_qs (chars "a=1&a=2")) = some [chars "1", chars "2"] ∧
    (querySurface (chars "a=1&a=2") (chars "a") =
        some (.list [chars "1", chars "2"]) ∧
      formSurface (chars "POST") (chars "a=1&a=2") (chars "a") =
        some (collapse [chars "1", chars "2"]) ∧
      (∀ v, [chars "1", chars "2"] = [v] →
        formSurface (chars "POST") (chars "a=1&a=2") (chars "a") = some (.str v)) ∧
      (2 ≤ ([chars "1", chars "2"] : List Str).length →
        formSurface (chars "POST") (chars "a=1&a=2") (chars "a") =
          querySurface (chars "a=1&a=2") (chars "a"))) :=
  ⟨by decide,
    collapse_rule_form_vs_query (chars "a=1&a=2") (chars "a") [chars "1", chars "2"]
      (by decide)⟩

/-- C6: `_get_session` returns the stored mapping untouched (store and
response cookies unchanged) when the request carries a known non-empty
session id; otherwise it mints the supplied fresh identifier, stores an
empty mapping under it, sets it as a `session_id` cookie with path `/` on
the response, and returns the empty mapping.  Two cookie-less requests
minting distinct fresh identifiers receive distinct session ids, and a
client replaying a previously minted cookie gets back the identical
stored mapping without re-minting. -/
theorem session_get_or_create :
    ∀ (sessions : SessionStore) (fresh : Str) (req : WSGIRequest) (res : WSGIResponse),
      (∀ sid sess, getA (chars "session_id") req.cookies = some sid → sid ≠ [] →
        getA sid sessions = some sess →
        get_session sessions fresh req res = (sess, sessions, res)) ∧
      (getA (chars "session_id") req.cookies = none →
        get_session sessions fresh req res =
          ([], setA fresh [] sessions,
            set_cookie res (chars "session_id") fresh (chars "/")) ∧
        getA fresh (get_session sessions fresh req res).2.1 = some [] ∧
        getA (chars "session_id")
            (get_session sessions fresh req res).2.2.cookies = some (fresh, chars "/")) ∧
      (∀ (fresh2 : Str) (req2 : WSGIRequest) (res2 : WSGIResponse),
        getA (chars "session_id") req.cookies = none →
        getA (chars "session_id") req2.cookies = none →
        fresh ≠ fresh2 →
        getA (chars "session_id") (get_session sessions fresh req res).2.2.cookies ≠
          getA (chars "session_id") (get_session sessions fresh2 req2 res2).2.2.cookies) ∧
      (∀ (fresh2 : Str) (req2 : WSGIRequest) (res2 : WSGIResponse),
        getA (chars "session_id") req.cookies = none →
        getA (chars "session_id") req2.cookies = some fresh →
        fresh ≠ [] →
        get_session (get_session sessions fresh req res).2.1 fresh2 req2 res2 =
          ([], (get_session sessions fresh req res).2.1, res2)) := by
  intro sessions fresh req res
  refine ⟨?_, ?_, ?_, ?_⟩
  · intro sid sess hc hne hst
    simp [get_session, hc, hne, hst]
  · intro hc
    refine ⟨by simp [get_session, hc], ?_, ?_⟩
    · simp [get_session, hc, getA_setA_self]
    · simp [get_session, hc, set_cookie, getA_setA_self]
  · intro fresh2 req2 res2 hc hc2 hne
    have h1 : getA (chars "session_id")
        (get_session sessions fresh req res).2.2.cookies = some (fresh, chars "/") := by
      simp [get_session, hc, set_cookie, getA_setA_self]
    have h2 : getA (chars "session_id")
        (get_session sessions fresh2 req2 res2).2.2.cookies = some (fresh2, chars "/") := by
      simp [get_session, hc2, set_cookie, getA_setA_self]
    rw [h1, h2]
    intro heq
    injection heq with h3
    exact hne (congrArg Prod.fst h3)
  · intro fresh2 req2 res2 hc hc2 hne
    have hmint : (get_session sessions fresh req res).2.1 = setA fresh [] sessions := by
      simp [get_session, hc]
    rw [hmint]
    have hst : getA fresh (setA fresh [] sessions) = some ([] : List (Str × Str)) :=
      getA_setA_self _ _ _
    simp [get_session, hc2, hne, hst]

/-- Witness for C6: a mint for a cookie-less client followed by a replay
of the minted cookie returning the stored (empty) mapping. -/
theorem session_get_or_create_witness :
    (get_session [] (chars "id1") (reqDemo "GET" "/") newResponse =
      ([], setA (chars "id1") [] [],
        set_cookie newResponse (chars "session_id") (chars "id1") (chars "/")) ∧
      getA (chars "id1")
        (get_session [] (chars "id1") (reqDemo "GET" "/") newResponse).2.1 = some [] ∧
      getA (chars "session_id")
        (get_session [] (chars "id1") (reqDemo "GET" "/") newResponse).2.2.cookies =
          some (chars "id1", chars "/")) ∧
    get_session (get_session [] (chars "id1") (reqDemo "GET" "/") newResponse).2.1
        (chars "id2") ⟨chars "GET", chars "/", [(chars "session_id", chars "id1")], []⟩
        newResponse =
      ([], (get_session [] (chars "id1") (reqDemo "GET" "/") newResponse).2.1,
        newResponse) :=
  ⟨(session_get_or_create [] (chars "id1") (reqDemo "GET" "/") newResponse).2.1 (by decide),
    (session_get_or_create [] (chars "id1") (reqDemo "GET" "/") newResponse).2.2.2
      (chars "id2") ⟨chars "GET", chars "/", [(chars "session_id", chars "id1")], []⟩
      newResponse (by decide) (by decide) (by decide)⟩

/-- C7: whenever the final status of a response is one of 301, 302, 303,
307 or 308, `wsgi_app` emits an empty body regardless of the handler's
body; a handler returning a pre-built redirect to `/success` with status
302 produces the status line `302 Found`, a `Location: /success` header
and an empty body. -/
theorem redirect_suppresses_body :
    ∀ (routes : List RouteEntry) (sessions : SessionStore) (fresh : Str)
      (req : WSGIRequest),
      (redirectStatus (wsgi_app routes sessions fresh req).1.status = true →
        (wsgi_app routes sessions fresh req).1.body = []) ∧
      ((wsgi_app routesRedirect [] (chars "abc") (reqDemo "GET" "/")).1.statusLine =
          chars "302 Found" ∧
        (chars "Location", chars "/success") ∈
          (wsgi_app routesRedirect [] (chars "abc") (reqDemo "GET" "/")).1.headers ∧
        (wsgi_app routesRedirect [] (chars "abc") (reqDemo "GET" "/")).1.body = []) := by
  intro routes sessions fresh req
  constructor
  · intro h
    simp only [wsgi_app] at h ⊢
    rw [if_pos h]
  · refine ⟨by decide, by decide, by decide⟩

/-- Witness for C7 at the concrete redirect application. -/
theorem redirect_suppresses_body_witness :
    redirectStatus
        (wsgi_app routesRedirect [] (chars "abc") (reqDemo "GET" "/")).1.status = true ∧
    (wsgi_app routesRedirect [] (chars "abc") (reqDemo "GET" "/")).1.body = [] :=
  ⟨by decide,
    (redirect_suppresses_body routesRedirect [] (chars "abc") (reqDemo "GET" "/")).1
      (by decide)⟩

/-- C8: class-based dispatch selects the operation named after the
lower-cased request method and yields the ("405 Method Not Allowed", 405)
tuple when the view defines no such operation — independently of the route
table's method gate: a POST against a get-only class view registered with
methods ["GET", "POST"] passes the table gate (a match is selected) and
still emits 405. -/
theorem classview_method_dispatch :
    ∀ (ops : ClassViewOps) (req : WSGIRequest) (res : WSGIResponse) (kwargs : Caps),
      (getA (lowerStr req.method) ops = none →
        dispatch_request ops req res kwargs =
          (.pair (chars "405 Method Not Allowed") 405, res)) ∧
      (∀ (op : Handler), getA (lowerStr req.method) ops = some op →
        dispatch_request ops req res kwargs = op req res kwargs) ∧
      ((firstMatchAllowed routesClassView (chars "POST") (chars "/myview")).isSome = true ∧
        (wsgi_app routesClassView [] (chars "s") (reqDemo "POST" "/myview")).1.status = 405 ∧
        (wsgi_app routesClassView [] (chars "s") (reqDemo "POST" "/myview")).1.body =
          chars "405 Method Not Allowed") := by
  intro ops req res kwargs
  refine ⟨?_, ?_, by decide, by decide, by decide⟩
  · intro h
    simp [dispatch_request, h]
  · intro op h
    simp [dispatch_request, h]

/-- Witness for C8: the get-only class view receives a POST. -/
theorem classview_method_dispatch_witness :
    getA (lowerStr (chars "POST")) opsGetOnly = none ∧
    dispatch_request opsGetOnly (reqDemo "POST" "/myview") newResponse [] =
      (.pair (chars "405 Method Not Allowed") 405, newResponse) :=
  ⟨by rfl,
    (classview_method_dispatch opsGetOnly (reqDemo "POST" "/myview") newResponse []).1
      (by rfl)⟩

/-- C9: a template containing two placeholders with the same parameter
name is rejected at compile time (`re.compile` raises "redefinition of
group name"), and the error surfaces at registration, so no matcher with
undefined capture behavior is ever produced. -/
theorem duplicate_param_names_rejected :
    ∀ (tmpl : Str) (i j : Nat) (hij : i < j)
      (hj : j < (tokNames (scanTmpl tmpl)).length),
      (tokNames (scanTmpl tmpl)).get ⟨i, Nat.lt_trans hij hj⟩ =
        (tokNames (scanTmpl tmpl)).get ⟨j, hj⟩ →
      compile_route tmpl = none ∧
      (∀ (view : Handler) (methods : Option (List Str)) (routes : List RouteEntry),
        route_register routes tmpl view methods = none) := by
  intro tmpl i j hij hj heq
  have hnd : ¬ (tokNames (scanTmpl tmpl)).Nodup := by
    intro hnodup
    have hinj := List.nodup_iff_injective_get.mp hnodup
    have h2 := hinj heq
    have h3 : i = j := congrArg Fin.val h2
    omega
  have hcr : compile_route tmpl = none := by
    simp [compile_route, hnd]
  exact ⟨hcr, fun view methods routes => by simp [route_register, hcr]⟩

/-- Witness for C9: `/a/<x>/<x>` is rejected at compile and registration
time. -/
theorem duplicate_param_names_rejected_witness :
    compile_route (chars "/a/<x>/<x>") = none ∧
    (∀ (view : Handler) (methods : Option (List Str)) (routes : List RouteEntry),
      route_register routes (chars "/a/<x>/<x>") view methods = none) :=
  duplicate_param_names_rejected (chars "/a/<x>/<x>") 0 1 (by decide) (by decide) (by decide)

/-- C10 counterexample: a dispatched handler that sets a header (and a
status) on the per-request response and returns `None` yields the same
status line and body as an unregistered path, but its emitted header list
differs — the two responses are externally distinguishable. -/
theorem none_body_headers_distinguish :
    (wsgi_app routesNone [] (chars "abc") (reqDemo "GET" "/")).1.statusLine =
      (wsgi_app [] [] (chars "abc") (reqDemo "GET" "/")).1.statusLine ∧
    (wsgi_app routesNone [] (chars "abc") (reqDemo "GET" "/")).1.body =
      (wsgi_app [] [] (chars "abc") (reqDemo "GET" "/")).1.body ∧
    (wsgi_app routesNone [] (chars "abc") (reqDemo "GET" "/")).1.status = 404 ∧
    (wsgi_app routesNone [] (chars "abc") (reqDemo "GET" "/")).1.headers ≠
      (wsgi_app [] [] (chars "abc") (reqDemo "GET" "/")).1.headers := by
  refine ⟨by decide, by decide, by decide, by decide⟩

/-- C10 (amended): a dispatched handler returning `None` yields status 404
with body "404 Not Found", discarding the status code set on the
per-request response object; the status line and body are identical to
those of an unregistered path, though headers and cookies the handler set
on the per-request response are still emitted, so the full responses can
differ. -/
theorem none_body_yields_404 :
    ∀ (routes : List RouteEntry) (sessions : SessionStore) (fresh : Str)
      (req : WSGIRequest) (vc : Handler × Caps),
      firstMatchAllowed routes req.method req.path = some vc →
      (vc.1 { req with session := (get_session sessions fresh req newResponse).1 }
          (get_session sessions fresh req newResponse).2.2 vc.2).1 = ViewResult.raw none →
      (wsgi_app routes sessions fresh req).1.status = 404 ∧
      (wsgi_app routes sessions fresh req).1.body = chars "404 Not Found" ∧
      (wsgi_app routes sessions fresh req).1.statusLine = chars "404 Not Found" := by
  intro routes sessions fresh req vc hfm hraw
  simp only [wsgi_app, handle_request]
  rw [handleScan_spec]
  have hfm2 : firstMatchAllowed routes
      ({ req with session := (get_session sessions fresh req newResponse).1 }).method
      ({ req with session := (get_session sessions fresh req newResponse).1 }).path =
      some vc := hfm
  rw [hfm2]
  simp [normalizeResult, hraw]
  decide

/-- Witness for C10's amended theorem at the header-setting handler. -/
theorem none_body_yields_404_witness :
    (wsgi_app routesNone [] (chars "abc") (reqDemo "GET" "/")).1.status = 404 ∧
    (wsgi_app routesNone [] (chars "abc") (reqDemo "GET" "/")).1.body =
      chars "404 Not Found" ∧
    (wsgi_app routesNone [] (chars "abc") (reqDemo "GET" "/")).1.statusLine =
      chars "404 Not Found" :=
  none_body_yields_404 routesNone [] (chars "abc") (reqDemo "GET" "/")
    (hDemoNone, []) (by rfl) (by rfl)

end TinyFrameSpec
